import Mathlib

/-!
Verification of the data pipeline of the sensor dashboard
(src/sensor_dashboard.py): normalization of raw telemetry feed entries
(process_data), freshness classification (check_missed_updates), derived
status signals (extract_signal_strength, get_status_text and the
attempts lambda of main), and the CSV export round trip.

Conventions of the shallow embedding:
* Python numbers are modelled as rationals; pandas missing values
  (NaN / None) are modelled with Option.
* pd.to_numeric with coercion of errors is modelled by toNumeric
  below: a sign, an integer part and an optional fractional part
  (scientific notation and surrounding whitespace are not exercised by
  the telemetry values and are out of the modelled grammar).
* pd.to_datetime is modelled by parseTimestamp, restricted to the
  ISO-8601 shape of the created_at field of the telemetry API
  (YYYY-MM-DD with a T or space separator, HH:MM:SS, optional Z);
  other strings are unparseable.  With the default raising error mode,
  one unparseable timestamp in a column aborts the whole conversion,
  which process_data models with Except.error.
* a pandas DataFrame is modelled as a list of Record values; the
  distinguished None that process_data returns for an absent or empty
  feed list is modelled as Except.ok none.
* the notification kinds danger / warning / success returned by
  check_missed_updates are the encodings the code uses for the
  freshness statuses Missed / Overdue / Normal of the spec.
-/

namespace SensorDashboard

/-! ### Digit and decimal-number helpers -/

def digitVal (c : Char) : ℕ := c.toNat - 48

/-- Value of a digit string read left to right (base 10). -/
def parseNatFrom (l : List Char) : ℕ := l.foldl (fun a c => 10 * a + digitVal c) 0

def applySign (neg : Bool) (n : ℕ) : ℤ := if neg then -(n : ℤ) else (n : ℤ)

/-- Split a leading sign character off a character list. -/
def splitSign (l : List Char) : Bool × List Char :=
  match l with
  | [] => (false, [])
  | c :: r => if c = '-' then (true, r) else if c = '+' then (false, r) else (false, c :: r)

/-- Unsigned part of decimal parsing: digits with an optional point
and fractional digits (at least one digit overall, as accepted by
float parsing in Python). -/
def parseAfterSign (neg : Bool) (l1 : List Char) : Option (ℤ × ℕ) :=
  let ip := l1.takeWhile Char.isDigit
  let rest := l1.dropWhile Char.isDigit
  match rest with
  | [] => if ip = [] then none else some (applySign neg (parseNatFrom ip), 0)
  | c :: r =>
    if c = '.' then
      let fp := r.takeWhile Char.isDigit
      let rest2 := r.dropWhile Char.isDigit
      if rest2 = [] ∧ ¬(ip = [] ∧ fp = []) then
        some (applySign neg (parseNatFrom ip * 10 ^ fp.length + parseNatFrom fp), fp.length)
      else none
    else none

/-- Parse a decimal literal into mantissa and fractional length: the
string denotes mantissa / 10 ^ exponent. -/
def parseDecimalRep (l : List Char) : Option (ℤ × ℕ) :=
  parseAfterSign (splitSign l).1 (splitSign l).2

/-- Numeric value of a decimal literal, if well formed. -/
def parseDecimal (s : String) : Option ℚ :=
  (parseDecimalRep s.data).map (fun p => (p.1 : ℚ) / 10 ^ p.2)

/-- pd.to_numeric with coerced errors, applied to one cell: a parse
failure or a missing cell becomes absent, never zero and never an
error. -/
def toNumeric (x : Option String) : Option ℚ := x.bind (fun s => parseDecimal s)

/-! ### Decimal rendering (used by the CSV export model) -/

/-- Big-endian decimal digit characters of n (empty for 0). -/
def digitChars (n : ℕ) : List Char := ((Nat.digits 10 n).map Nat.digitChar).reverse

def renderNat (n : ℕ) : List Char := if n = 0 then ['0'] else digitChars n

/-- Digits of n padded with leading zeros to width e. -/
def padDigits (n e : ℕ) : List Char :=
  List.replicate (e - (Nat.digits 10 n).length) '0' ++ digitChars n

/-- Render the rational m / 10 ^ e in decimal notation with exactly e
fractional digits. -/
def renderScaled (m : ℤ) (e : ℕ) : List Char :=
  (if m < 0 then ['-'] else []) ++ renderNat (m.natAbs / 10 ^ e)
    ++ '.' :: padDigits (m.natAbs % 10 ^ e) e

/-- Decimal rendering of a rational; exact whenever the denominator
divides a power of ten, which holds for every value produced by
toNumeric.  Models the formatting a float receives in a CSV cell. -/
def renderQ (q : ℚ) : String := String.mk (renderScaled (q * (10 : ℚ) ^ q.den).num q.den)

/-- Python format to one decimal place (rounding modelled as round half
up; only the claims about classification, not message digits, are
settled through this). -/
def fmt1 (q : ℚ) : String := String.mk (renderScaled (round (q * 10)) 1)

/-- Python str of a number for message interpolation. -/
def qToStr (q : ℚ) : String :=
  if q.den = 1 then toString q.num else renderQ q

/-! ### URL decoding (urllib unquote_plus after replacing plus signs) -/

def hexVal (c : Char) : Option ℕ :=
  if c.isDigit then some (digitVal c)
  else if 'A' ≤ c ∧ c ≤ 'F' then some (c.toNat - 55)
  else if 'a' ≤ c ∧ c ≤ 'f' then some (c.toNat - 87)
  else none

/-- One pass doing replace of plus by space and percent decoding, the
composition the code applies to field8 (multi-byte UTF-8 escapes are
not exercised by the claims and are decoded bytewise). -/
def unquotePlusChars : List Char → List Char
  | [] => []
  | '%' :: a :: b :: rest =>
    match hexVal a, hexVal b with
    | some ha, some hb => Char.ofNat (16 * ha + hb) :: unquotePlusChars rest
    | _, _ => '%' :: unquotePlusChars (a :: b :: rest)
  | '+' :: rest => ' ' :: unquotePlusChars rest
  | c :: rest => c :: unquotePlusChars rest

/-! ### Timestamp parsing (pd.to_datetime on the created_at column) -/

def isLeap (y : ℕ) : Bool := (y % 4 == 0 && y % 100 != 0) || y % 400 == 0

def daysInMonth (y m : ℕ) : ℕ :=
  if m = 2 then (if isLeap y then 29 else 28)
  else if m = 4 ∨ m = 6 ∨ m = 9 ∨ m = 11 then 30 else 31

/-- Day count of a proleptic Gregorian civil date, measured from the
start of era 0 (the fixed epoch offset cancels in every difference the
dashboard computes, so it is dropped). -/
def daysFromCivil (y m d : ℕ) : ℕ :=
  let y2 := if m ≤ 2 then y - 1 else y
  let era := y2 / 400
  let yoe := y2 % 400
  let mp := if 2 < m then m - 3 else m + 9
  let doy := (153 * mp + 2) / 5 + (d - 1)
  let doe := yoe * 365 + yoe / 4 - yoe / 100 + doy
  era * 146097 + doe

def digit2 (a b : Char) : ℕ := 10 * digitVal a + digitVal b

/-- Parse an ISO-8601 timestamp string into a point on the time line,
in seconds.  Returns none on any string not of the accepted shape,
modelling a raising pd.to_datetime. -/
def parseTimestamp (s : String) : Option ℚ :=
  let l := s.data
  let core := match l.getLast? with
    | some 'Z' => l.dropLast
    | _ => l
  match core with
  | [y1, y2, y3, y4, '-', m1, m2, '-', d1, d2, sep, h1, h2, ':', n1, n2, ':', s1, s2] =>
    if (sep = 'T' ∨ sep = ' ') ∧
        ([y1, y2, y3, y4, m1, m2, d1, d2, h1, h2, n1, n2, s1, s2].all Char.isDigit) then
      let y := 100 * digit2 y1 y2 + digit2 y3 y4
      let mo := digit2 m1 m2
      let dd := digit2 d1 d2
      let hh := digit2 h1 h2
      let mi := digit2 n1 n2
      let ss := digit2 s1 s2
      if 1 ≤ y ∧ 1 ≤ mo ∧ mo ≤ 12 ∧ 1 ≤ dd ∧ dd ≤ daysInMonth y mo ∧
          hh ≤ 23 ∧ mi ≤ 59 ∧ ss ≤ 59 then
        some ((daysFromCivil y mo dd * 86400 + hh * 3600 + mi * 60 + ss : ℕ) : ℚ)
      else none
    else none
  | _ => none

/-! ### Data model -/

/-- One raw feed entry of the telemetry API: a created_at timestamp
string and up to eight named fields. -/
structure RawFeedEntry where
  created_at : String
  field1 : Option String
  field2 : Option String
  field3 : Option String
  field4 : Option String
  field5 : Option String
  field6 : Option String
  field7 : Option String
  field8 : Option String
deriving DecidableEq

/-- The JSON body of a fetch: feeds is none when the key is missing. -/
structure RawFeedBatch where
  feeds : Option (List RawFeedEntry)
deriving DecidableEq

/-- One row of the normalized DataFrame built by process_data. -/
structure Record where
  created_at : ℚ
  field1 : Option ℚ
  field2 : Option ℚ
  field3 : Option ℚ
  field4 : Option ℚ
  field5 : Option ℚ
  field6 : Option ℚ
  field7 : Option ℚ
  field8 : String
deriving DecidableEq

/-- Normalization of one entry (valid-timestamp case; the default 0 is
never exposed because process_data errors out when any timestamp fails
to parse). -/
def toRecord (e : RawFeedEntry) : Record :=
  ⟨(parseTimestamp e.created_at).getD 0,
    toNumeric e.field1, toNumeric e.field2, toNumeric e.field3, toNumeric e.field4,
    toNumeric e.field5, toNumeric e.field6, toNumeric e.field7,
    match e.field8 with
    | some s => String.mk (unquotePlusChars s.data)
    | none => ""⟩

/-- process_data: returns the distinguished None (ok none) when the
batch is absent, has no feeds key, or an empty feed list; raises
(error) when pd.to_datetime meets an unparseable created_at; otherwise
yields the normalized rows in input order. -/
def process_data (data : Option RawFeedBatch) : Except String (Option (List Record)) :=
  match data with
  | none => .ok none
  | some batch =>
    match batch.feeds with
    | none => .ok none
    | some [] => .ok none
    | some (e0 :: es) =>
      match (e0 :: es).find? (fun e => (parseTimestamp e.created_at).isNone) with
      | some bad => .error ("Unknown datetime string format: " ++ bad.created_at)
      | none => .ok (some ((e0 :: es).map toRecord))

/-! ### Freshness classification -/

/-- Maximum of the created_at column (the code takes df created_at
max). -/
def latestTimestamp : List Record → ℚ
  | [] => 0
  | r :: rs => (rs.map Record.created_at).foldl max r.created_at

/-- check_missed_updates: notification kind and message.  now is the
clock value the code reads at call time, in the same seconds time line
as the parsed timestamps. -/
def check_missed_updates (df : Option (List Record)) (now : ℚ)
    (expected_interval_hours : ℚ) : String × String :=
  match df with
  | none => ("danger", "No data available")
  | some [] => ("danger", "No data available")
  | some (r :: rs) =>
    let latest_update := latestTimestamp (r :: rs)
    let time_since_update := (now - latest_update) / 3600
    let warning_threshold := expected_interval_hours + 1 / 2
    let missed_threshold := expected_interval_hours * 2
    if missed_threshold ≤ time_since_update then
      ("danger", "🚨 MISSED UPDATE! Last update was " ++ fmt1 time_since_update
        ++ " hours ago (expected every " ++ qToStr expected_interval_hours ++ "h)")
    else if warning_threshold ≤ time_since_update then
      ("warning", "⚠️ Update Overdue: " ++ fmt1 time_since_update
        ++ " hours ago (next expected soon)")
    else
      ("success", "✅ Status Normal: Last update " ++ fmt1 time_since_update
        ++ "h ago (next in " ++ fmt1 (expected_interval_hours - time_since_update) ++ "h)")

/-! ### Signal strength extraction -/

def isSpaceChar (c : Char) : Bool :=
  c = ' ' || c = '\t' || c = '\n' || c.toNat = 11 || c.toNat = 12 || c.toNat = 13

/-- Try to match, at the head of l, the tail of the regular expression
Signal colon, whitespace, optional minus, digits, whitespace, dBm. -/
def matchSignalTail (l : List Char) : Option ℤ :=
  let l1 := l.dropWhile isSpaceChar
  let signSplit : Bool × List Char :=
    match l1 with
    | '-' :: r => (true, r)
    | r => (false, r)
  let ds := signSplit.2.takeWhile Char.isDigit
  let l2 := signSplit.2.dropWhile Char.isDigit
  if ds = [] then none
  else if (l2.dropWhile isSpaceChar).take 3 = ['d', 'B', 'm'] then
    some (applySign signSplit.1 (parseNatFrom ds))
  else none

/-- Leftmost search of the pattern, as re dot search does. -/
def searchSignal : List Char → Option ℤ
  | [] => none
  | c :: rest =>
    if (c :: rest).take 7 = ['S', 'i', 'g', 'n', 'a', 'l', ':'] then
      match matchSignalTail ((c :: rest).drop 7) with
      | some v => some v
      | none => searchSignal rest
    else searchSignal rest

/-- extract_signal_strength: absent message gives absent; otherwise a
regular-expression search for Signal colon value dBm. -/
def extract_signal_strength (message : Option String) : Option ℤ :=
  match message with
  | none => none
  | some s => searchSignal s.data

/-! ### Status text and attempts -/

/-- Python int truncation toward zero of a number: on a reduced
fraction with positive denominator, truncating division of the
numerator by the denominator. -/
def truncTowardZero (q : ℚ) : ℤ := q.num.tdiv q.den

def status_map : List (ℤ × String) :=
  [(1, "🔄 Upload Retry Success"),
   (2, "📶 WiFi Retry Success"),
   (3, "🔋 Low Battery Warning"),
   (4, "✅ Normal Reading")]

/-- get_status_text: Unknown for an absent code, otherwise the fixed
table looked up at the int truncation of the code, defaulting to a
generic Code label. -/
def get_status_text (status_code : Option ℚ) : String :=
  match status_code with
  | none => "Unknown"
  | some v =>
    let n := truncTowardZero v
    (status_map.lookup n).getD ("Code: " ++ toString n)

/-- The attempts lambda of main: 2 for codes 1 and 2, else 1 (also 1
for an absent code). -/
def attempts (status_code : Option ℚ) : ℕ :=
  match status_code with
  | none => 1
  | some v => if v = 1 ∨ v = 2 then 2 else 1

/-! ### CSV export (df to_csv and re-parsing) -/

/-- One CSV cell of an optional numeric column: absent is the empty
string, present is the decimal rendering of the value. -/
def exportCell : Option ℚ → String
  | none => ""
  | some q => renderQ q

/-- One exported row of the DataFrame, in column order. -/
def exportRow (r : Record) : List String :=
  [renderQ r.created_at, exportCell r.field1, exportCell r.field2, exportCell r.field3,
    exportCell r.field4, exportCell r.field5, exportCell r.field6, exportCell r.field7,
    r.field8]

/-- Re-parsing of one CSV cell of a numeric column: empty is absent. -/
def parseCell (s : String) : Option ℚ := if s = "" then none else parseDecimal s

/-- Re-parsing of the moisture, battery and status columns of an
exported row. -/
def parseRow (row : List String) : Option ℚ × Option ℚ × Option ℚ :=
  (parseCell (row.getD 1 ""), parseCell (row.getD 3 ""), parseCell (row.getD 4 ""))

/-! ### Helper lemmas -/

lemma digitVal_digitChar {d : ℕ} (hd : d < 10) : digitVal (Nat.digitChar d) = d := by
  interval_cases d <;> rfl

lemma isDigit_digitChar {d : ℕ} (hd : d < 10) : (Nat.digitChar d).isDigit = true := by
  interval_cases d <;> rfl

lemma mem_digitChars_isDigit {n : ℕ} {c : Char} (hc : c ∈ digitChars n) :
    c.isDigit = true := by
  rw [digitChars, List.mem_reverse, List.mem_map] at hc
  obtain ⟨d, hd, rfl⟩ := hc
  exact isDigit_digitChar (Nat.digits_lt_base (by norm_num) hd)

lemma foldl_digitChars (ds : List ℕ) (hds : ∀ d ∈ ds, d < 10) (acc : ℕ) :
    List.foldl (fun a c => 10 * a + digitVal c) acc ((ds.map Nat.digitChar).reverse) =
      acc * 10 ^ ds.length + Nat.ofDigits 10 ds := by
  induction ds generalizing acc with
  | nil => simp [Nat.ofDigits]
  | cons d ds ih =>
    have hd : d < 10 := hds d (by simp)
    have hds2 : ∀ x ∈ ds, x < 10 := fun x hx => hds x (List.mem_cons_of_mem _ hx)
    simp only [List.map_cons, List.reverse_cons, List.foldl_append, ih hds2,
      List.foldl_cons, List.foldl_nil, Nat.ofDigits_cons, List.length_cons]
    rw [digitVal_digitChar hd]
    ring

lemma parseNatFrom_digitChars (n : ℕ) : parseNatFrom (digitChars n) = n := by
  unfold parseNatFrom digitChars
  rw [foldl_digitChars _ (fun d hd => Nat.digits_lt_base (by norm_num) hd) 0]
  simp [Nat.ofDigits_digits]

lemma parseNatFrom_renderNat (n : ℕ) : parseNatFrom (renderNat n) = n := by
  by_cases h : n = 0
  · subst h
    rfl
  · rw [renderNat, if_neg h]
    exact parseNatFrom_digitChars n

lemma renderNat_ne_nil (n : ℕ) : renderNat n ≠ [] := by
  by_cases h : n = 0
  · subst h
    simp [renderNat]
  · rw [renderNat, if_neg h, digitChars]
    simp [Nat.digits_ne_nil_iff_ne_zero.mpr h]

lemma mem_renderNat_isDigit {n : ℕ} {c : Char} (hc : c ∈ renderNat n) :
    c.isDigit = true := by
  by_cases h : n = 0
  · subst h
    simp [renderNat] at hc
    subst hc
    rfl
  · rw [renderNat, if_neg h] at hc
    exact mem_digitChars_isDigit hc

lemma parseNatFrom_replicate_zero (k : ℕ) (l : List Char) :
    parseNatFrom (List.replicate k '0' ++ l) = parseNatFrom l := by
  induction k with
  | zero => simp
  | succ k ih =>
    rw [List.replicate_succ, List.cons_append]
    show List.foldl _ (10 * 0 + digitVal '0') _ = _
    exact ih

lemma parseNatFrom_padDigits (n e : ℕ) : parseNatFrom (padDigits n e) = n := by
  rw [padDigits, parseNatFrom_replicate_zero]
  exact parseNatFrom_digitChars n

lemma digits_length_le {n e : ℕ} (h : n < 10 ^ e) : (Nat.digits 10 n).length ≤ e := by
  rcases eq_or_ne n 0 with rfl | hn
  · simp
  · rw [Nat.digits_len 10 n (by norm_num) hn]
    have := Nat.log_lt_of_lt_pow hn h
    omega

lemma padDigits_length {n e : ℕ} (h : n < 10 ^ e) : (padDigits n e).length = e := by
  have hle := digits_length_le h
  rw [padDigits]
  simp [digitChars]
  omega

lemma mem_padDigits_isDigit {n e : ℕ} {c : Char} (hc : c ∈ padDigits n e) :
    c.isDigit = true := by
  rw [padDigits, List.mem_append] at hc
  rcases hc with hc | hc
  · rw [List.eq_of_mem_replicate hc]
    rfl
  · exact mem_digitChars_isDigit hc

lemma isDigit_ne {c : Char} (hc : c.isDigit = true) :
    c ≠ '-' ∧ c ≠ '+' ∧ c ≠ '.' := by
  refine ⟨?_, ?_, ?_⟩ <;> rintro rfl <;> exact absurd hc (by decide)

lemma takeWhile_all {p : Char → Bool} :
    ∀ (A : List Char), (∀ c ∈ A, p c = true) →
      A.takeWhile p = A ∧ A.dropWhile p = []
  | [], _ => ⟨rfl, rfl⟩
  | a :: as, h => by
    have ha : p a = true := h a (by simp)
    have ih := takeWhile_all as (fun c hc => h c (List.mem_cons_of_mem _ hc))
    rw [List.takeWhile_cons, List.dropWhile_cons, ha]
    simp [ih.1, ih.2]

lemma takeWhile_append_stop {p : Char → Bool} (A : List Char)
    (hA : ∀ c ∈ A, p c = true) (b : Char) (hb : p b = false) (B : List Char) :
    (A ++ b :: B).takeWhile p = A ∧ (A ++ b :: B).dropWhile p = b :: B := by
  induction A with
  | nil =>
    rw [List.nil_append, List.takeWhile_cons, List.dropWhile_cons, hb]
    simp
  | cons a as ih =>
    have ha : p a = true := hA a (by simp)
    have ih2 := ih (fun c hc => hA c (List.mem_cons_of_mem _ hc))
    rw [List.cons_append, List.takeWhile_cons, List.dropWhile_cons, ha]
    simp [ih2.1, ih2.2]

lemma check_missed_updates_fst (r : Record) (rs : List Record) (now I : ℚ) :
    (check_missed_updates (some (r :: rs)) now I).1 =
      if I * 2 ≤ (now - latestTimestamp (r :: rs)) / 3600 then "danger"
      else if I + 1 / 2 ≤ (now - latestTimestamp (r :: rs)) / 3600 then "warning"
      else "success" := by
  simp only [check_missed_updates]
  split_ifs <;> rfl

lemma splitSign_digit_head {A : List Char} (hAne : A ≠ [])
    (hA : ∀ c ∈ A, c.isDigit = true) (tail : List Char) :
    splitSign (A ++ tail) = (false, A ++ tail) := by
  obtain ⟨a, as, rfl⟩ := List.exists_cons_of_ne_nil hAne
  have hane := isDigit_ne (hA a (by simp))
  rw [List.cons_append, splitSign, if_neg hane.1, if_neg hane.2.1]

lemma splitSign_neg (l : List Char) : splitSign ('-' :: l) = (true, l) := by
  rw [splitSign, if_pos rfl]

lemma parseAfterSign_eq (neg : Bool) (A B : List Char) (hAne : A ≠ [])
    (hA : ∀ c ∈ A, c.isDigit = true) (hB : ∀ c ∈ B, c.isDigit = true) :
    parseAfterSign neg (A ++ '.' :: B) =
      some (applySign neg (parseNatFrom A * 10 ^ B.length + parseNatFrom B), B.length) := by
  have tw := takeWhile_append_stop A hA '.' (by decide) B
  have tb := takeWhile_all B hB
  rw [parseAfterSign]
  simp only [tw.1, tw.2]
  rw [if_pos trivial]
  simp only [tb.1, tb.2]
  rw [if_pos ⟨trivial, fun hc => hAne hc.1⟩]

/-- Rendering a scaled integer and re-parsing recovers exactly the
mantissa and the exponent. -/
lemma parseDecimalRep_renderScaled (m : ℤ) (e : ℕ) :
    parseDecimalRep (renderScaled m e) = some (m, e) := by
  set A := renderNat (m.natAbs / 10 ^ e) with hAdef
  set B := padDigits (m.natAbs % 10 ^ e) e with hBdef
  have hAne : A ≠ [] := renderNat_ne_nil _
  have hA : ∀ c ∈ A, c.isDigit = true := fun c hc => mem_renderNat_isDigit hc
  have hB : ∀ c ∈ B, c.isDigit = true := fun c hc => mem_padDigits_isDigit hc
  have hr : m.natAbs % 10 ^ e < 10 ^ e := Nat.mod_lt _ (pow_pos (by norm_num) e)
  have hBlen : B.length = e := padDigits_length hr
  have hval : parseNatFrom A * 10 ^ B.length + parseNatFrom B = m.natAbs := by
    rw [hAdef, hBdef, parseNatFrom_renderNat, parseNatFrom_padDigits, hBlen, mul_comm]
    exact Nat.div_add_mod _ _
  by_cases hm : m < 0
  · have hsplit : renderScaled m e = '-' :: (A ++ '.' :: B) := by
      rw [renderScaled, if_pos hm]
      simp
    rw [hsplit, parseDecimalRep, splitSign_neg,
      parseAfterSign_eq true A B hAne hA hB, hval, hBlen]
    have : applySign true m.natAbs = m := by
      rw [applySign]
      simp [Int.ofNat_natAbs_of_nonpos (le_of_lt hm)]
    rw [this]
  · have hsplit : renderScaled m e = A ++ '.' :: B := by
      rw [renderScaled, if_neg hm]
      simp
    rw [hsplit, parseDecimalRep, splitSign_digit_head hAne hA,
      parseAfterSign_eq false A B hAne hA hB, hval, hBlen]
    have : applySign false m.natAbs = m := by
      rw [applySign]
      simp [Int.natAbs_of_nonneg (not_lt.mp hm)]
    rw [this]

lemma dvd_ten_pow_self {d k : ℕ} (hd : d ≠ 0) (h : d ∣ 10 ^ k) : d ∣ 10 ^ d := by
  rw [← Nat.factorization_prime_le_iff_dvd hd (pow_ne_zero _ (by norm_num))]
  intro p hp
  have h1 := (Nat.factorization_prime_le_iff_dvd hd
    (pow_ne_zero _ (by norm_num : (10 : ℕ) ≠ 0))).mpr h p hp
  rw [Nat.factorization_pow] at h1 ⊢
  simp only [Finsupp.smul_apply, smul_eq_mul] at h1 ⊢
  rcases Nat.eq_zero_or_pos ((Nat.factorization 10) p) with h0 | hpos
  · rw [h0] at h1 ⊢
    simpa using h1
  · have hlt : d.factorization p < d := Nat.factorization_lt p hd
    calc d.factorization p ≤ d := le_of_lt hlt
      _ ≤ d * (Nat.factorization 10) p := Nat.le_mul_of_pos_right d hpos

lemma den_smooth_of_parseDecimal {s : String} {q : ℚ} (h : parseDecimal s = some q) :
    (q * (10 : ℚ) ^ q.den).den = 1 := by
  obtain ⟨⟨m, e⟩, hrep, hq⟩ :
      ∃ p, parseDecimalRep s.data = some p ∧ ((p.1 : ℚ) / 10 ^ p.2) = q := by
    rcases hp : parseDecimalRep s.data with _ | p
    · rw [parseDecimal, hp] at h
      exact Option.noConfusion h
    · rw [parseDecimal, hp] at h
      exact ⟨p, rfl, by simpa using h⟩
  have hdvd : (q.den : ℤ) ∣ (10 : ℤ) ^ e := by
    have hdi : ((Rat.divInt m ((10 : ℤ) ^ e)) : ℚ) = q := by
      rw [Rat.divInt_eq_div]
      push_cast
      exact hq
    rw [← hdi]
    exact Rat.den_dvd m ((10 : ℤ) ^ e)
  have hdvdn : q.den ∣ 10 ^ e := by
    rw [show ((10 : ℤ) ^ e) = ((10 ^ e : ℕ) : ℤ) by push_cast; ring] at hdvd
    exact_mod_cast hdvd
  obtain ⟨t, ht⟩ := dvd_ten_pow_self q.den_nz hdvdn
  have h10 : (10 : ℚ) ^ q.den = (q.den : ℚ) * (t : ℚ) := by
    have hc := congrArg (fun n : ℕ => (n : ℚ)) ht
    push_cast at hc
    simpa using hc
  have hd0 : ((q.den : ℚ)) ≠ 0 := Nat.cast_ne_zero.mpr q.den_nz
  have hqden : (q * (q.den : ℚ)) = (q.num : ℚ) := by
    have h2 := Rat.num_div_den q
    rw [div_eq_iff hd0] at h2
    exact h2.symm
  have hint : q * (10 : ℚ) ^ q.den = ((q.num * (t : ℤ) : ℤ) : ℚ) := by
    rw [h10, ← mul_assoc, hqden]
    push_cast
    ring
  rw [hint, Rat.den_intCast]

lemma parseDecimal_renderQ {q : ℚ} (h : (q * (10 : ℚ) ^ q.den).den = 1) :
    parseDecimal (renderQ q) = some q := by
  rw [renderQ, parseDecimal]
  have hdata : (String.mk (renderScaled (q * (10 : ℚ) ^ q.den).num q.den)).data
      = renderScaled (q * (10 : ℚ) ^ q.den).num q.den := rfl
  rw [hdata, parseDecimalRep_renderScaled]
  simp only [Option.map_some']
  congr 1
  have hnum : (((q * (10 : ℚ) ^ q.den).num : ℚ)) = q * (10 : ℚ) ^ q.den :=
    (Rat.den_eq_one_iff _).mp h
  rw [hnum]
  exact mul_div_cancel_right₀ q (by positivity)

lemma parseCell_exportCell (os : Option String) :
    parseCell (exportCell (toNumeric os)) = toNumeric os := by
  rcases hn : toNumeric os with _ | q
  · rfl
  · have himg : ∃ s, parseDecimal s = some q := by
      rcases os with _ | s
      · exact absurd hn (by simp [toNumeric])
      · exact ⟨s, by simpa [toNumeric] using hn⟩
    obtain ⟨s, hs⟩ := himg
    have hsm := den_smooth_of_parseDecimal hs
    show parseCell (exportCell (some q)) = some q
    rw [exportCell]
    have hne : renderQ q ≠ "" := by
      intro hc
      rw [String.ext_iff] at hc
      change renderScaled (q * (10 : ℚ) ^ q.den).num q.den = [] at hc
      simp [renderScaled] at hc
    rw [parseCell, if_neg hne]
    exact parseDecimal_renderQ hsm

lemma process_data_cons {b : RawFeedBatch} {e0 : RawFeedEntry} {es : List RawFeedEntry}
    (hf : b.feeds = some (e0 :: es)) :
    process_data (some b) =
      match (e0 :: es).find? (fun x => (parseTimestamp x.created_at).isNone) with
      | some bad => .error ("Unknown datetime string format: " ++ bad.created_at)
      | none => .ok (some ((e0 :: es).map toRecord)) := by
  simp [process_data, hf]

lemma truncTowardZero_intCast (n : ℤ) : truncTowardZero (n : ℚ) = n := by
  simp [truncTowardZero]

lemma truncTowardZero_eq_floor (q : ℚ) (hq : 0 ≤ q) : truncTowardZero q = ⌊q⌋ := by
  unfold truncTowardZero
  rw [Int.tdiv_eq_ediv (by exact_mod_cast Rat.num_nonneg.mpr hq) (by positivity)]
  exact Rat.floor_def.symm

/-! ### Claim theorems -/

/-- Claim C1: for a non-empty record sequence, check_missed_updates
classifies from hours_since, computed from the latest timestamp: at or
above twice the expected interval it is Missed (danger), else at or
above the expected interval plus half an hour it is Overdue (warning),
else Normal (success); the Missed test is decided first, so the shared
boundary at twice the interval is Missed and the Overdue boundary is
inclusive. -/
theorem c1_freshness_classification (rs : List Record) (hne : rs ≠ []) (now I : ℚ) :
    (2 * I ≤ (now - latestTimestamp rs) / 3600 →
      (check_missed_updates (some rs) now I).1 = "danger") ∧
    ((now - latestTimestamp rs) / 3600 < 2 * I →
      I + 1 / 2 ≤ (now - latestTimestamp rs) / 3600 →
      (check_missed_updates (some rs) now I).1 = "warning") ∧
    ((now - latestTimestamp rs) / 3600 < 2 * I →
      (now - latestTimestamp rs) / 3600 < I + 1 / 2 →
      (check_missed_updates (some rs) now I).1 = "success") := by
  match rs, hne with
  | r :: rs', _ =>
    rw [check_missed_updates_fst]
    refine ⟨fun h1 => ?_, fun h2 h3 => ?_, fun h4 h5 => ?_⟩
    · rw [if_pos (by linarith)]
    · rw [if_neg (by linarith), if_pos h3]
    · rw [if_neg (by linarith), if_neg (by linarith)]

/-- Claim C1 witness: a single record exactly twice the expected
interval old (latest timestamp 0, clock at 21600 seconds, interval 3
hours, hence hours_since equal to 6) is classified Missed. -/
theorem c1_witness :
    (check_missed_updates (some [⟨0, none, none, none, none, none, none, none, ""⟩])
      21600 3).1 = "danger" := by
  have h := c1_freshness_classification
    [⟨0, none, none, none, none, none, none, none, ""⟩] (by simp) 21600 3
  exact h.1 (by norm_num [latestTimestamp])

/-- Claim C2 counterexample: on an empty record sequence the message
the code returns is capitalized, so it is not the literal message the
claim states. -/
theorem c2_counterexample : (check_missed_updates (some []) 0 3).2 ≠ "no data available" := by
  decide

/-- Claim C2 amended: for every clock value and expected interval,
check_missed_updates on an empty record sequence (and on the
distinguished absent DataFrame) returns the Missed (danger) status
with the message No data available, capitalized. -/
theorem c2_empty_is_missed (now I : ℚ) :
    check_missed_updates (some []) now I = ("danger", "No data available") ∧
    check_missed_updates none now I = ("danger", "No data available") :=
  ⟨rfl, rfl⟩

/-- Claim C3 counterexample: on a batch with an empty feed list,
process_data returns the distinguished None result, not an empty
record sequence. -/
theorem c3_counterexample :
    process_data (some ⟨some []⟩) = Except.ok none ∧
    process_data (some ⟨some []⟩) ≠ Except.ok (some ([] : List Record)) :=
  ⟨rfl, fun h => Option.noConfusion (Except.ok.inj h)⟩

/-- Claim C3 amended: for every batch whose feed list is empty or
missing (and for an absent body), process_data returns the
distinguished None result: no error is raised, but the result is a
null marker rather than an empty sequence of records. -/
theorem c3_empty_feeds_give_none (data : Option RawFeedBatch)
    (h : data = none ∨ ∃ b, data = some b ∧ (b.feeds = none ∨ b.feeds = some [])) :
    process_data data = Except.ok none := by
  rcases h with rfl | ⟨b, rfl, hb | hb⟩
  · rfl
  · simp [process_data, hb]
  · simp [process_data, hb]

/-- Claim C3 amended witness: the empty feed list concretely yields
the None result. -/
theorem c3_witness : process_data (some ⟨some []⟩) = Except.ok none :=
  c3_empty_feeds_give_none _ (Or.inr ⟨_, rfl, Or.inr rfl⟩)

/-- Claim C6: extract_signal_strength returns the signed integer of
the first Signal pattern match (case sensitive on Signal, tolerant of
any amount of whitespace around the number), and absent when the text
is absent or carries no match. -/
theorem c6_extract_signal :
    extract_signal_strength (some "WiFi connected. Signal: -67 dBm") = some (-67) ∧
    extract_signal_strength (some "no signal info") = none ∧
    extract_signal_strength none = none ∧
    extract_signal_strength (some "signal: -67 dBm") = none ∧
    extract_signal_strength (some "Signal:-67dBm") = some (-67) ∧
    extract_signal_strength (some "Signal: 42 dBm") = some 42 := by
  refine ⟨by decide, by decide, rfl, by decide, by decide, by decide⟩

/-- Claim C9: for every possible status code cell (any numeric value
or absent), the derived attempts value is exactly 1 or exactly 2. -/
theorem c9_attempts_one_or_two (oc : Option ℚ) : attempts oc = 1 ∨ attempts oc = 2 := by
  rcases oc with _ | v
  · exact Or.inl rfl
  · by_cases h : v = 1 ∨ v = 2
    · exact Or.inr (by simp [attempts, h])
    · exact Or.inl (by simp [attempts, h])

/-- Claim C10: the status label of a present numeric code is the label
of its int truncation toward zero; in particular 4.9 is labelled as
code 4 (Normal Reading) and 1.5 as code 1 (Upload Retry Success). -/
theorem c10_label_truncates (q : ℚ) :
    get_status_text (some q) = get_status_text (some ((truncTowardZero q : ℤ) : ℚ)) ∧
    get_status_text (some (49 / 10 : ℚ)) = "✅ Normal Reading" ∧
    get_status_text (some (3 / 2 : ℚ)) = "🔄 Upload Retry Success" ∧
    truncTowardZero (49 / 10 : ℚ) = 4 ∧ truncTowardZero (3 / 2 : ℚ) = 1 := by
  have h49 : truncTowardZero (49 / 10 : ℚ) = 4 := by
    rw [truncTowardZero_eq_floor _ (by norm_num)]
    norm_num
  have h32 : truncTowardZero (3 / 2 : ℚ) = 1 := by
    rw [truncTowardZero_eq_floor _ (by norm_num)]
    norm_num
  refine ⟨?_, ?_, ?_, h49, h32⟩
  · simp only [get_status_text, truncTowardZero_intCast]
  · simp only [get_status_text, h49]
    rfl
  · simp only [get_status_text, h32]
    rfl

/-- Claim C7: the derived attempts/status pair is deterministic in the
status code over the integer codes of the data model: codes 1 and 2
give count 2 with a retry label, any other present integer code gives
count 1 with the fixed-table label (3 is the low battery warning, 4 is
the Normal Reading label) or a generic Code label, and an absent code
gives count 1 with label Unknown. -/
theorem c7_derive_attempts (n : ℤ) :
    ((n = 1 ∨ n = 2) → attempts (some (n : ℚ)) = 2 ∧
      (get_status_text (some (n : ℚ)) = "🔄 Upload Retry Success" ∨
        get_status_text (some (n : ℚ)) = "📶 WiFi Retry Success")) ∧
    (n ≠ 1 → n ≠ 2 → attempts (some (n : ℚ)) = 1) ∧
    get_status_text (some ((3 : ℤ) : ℚ)) = "🔋 Low Battery Warning" ∧
    get_status_text (some ((4 : ℤ) : ℚ)) = "✅ Normal Reading" ∧
    (n ≠ 1 → n ≠ 2 → n ≠ 3 → n ≠ 4 →
      get_status_text (some (n : ℚ)) = "Code: " ++ toString n) ∧
    attempts none = 1 ∧ get_status_text none = "Unknown" := by
  have hlook : ∀ m : ℤ, get_status_text (some (m : ℚ)) =
      (status_map.lookup m).getD ("Code: " ++ toString m) := by
    intro m
    simp only [get_status_text, truncTowardZero_intCast]
  refine ⟨?_, ?_, ?_, ?_, ?_, rfl, rfl⟩
  · rintro (rfl | rfl)
    · refine ⟨by norm_num [attempts], Or.inl ?_⟩
      rw [hlook]
      rfl
    · refine ⟨by norm_num [attempts], Or.inr ?_⟩
      rw [hlook]
      rfl
  · intro h1 h2
    have hc : ¬((n : ℚ) = 1 ∨ (n : ℚ) = 2) := by
      rintro (h | h)
      · exact h1 (by exact_mod_cast h)
      · exact h2 (by exact_mod_cast h)
    have hdef : attempts (some (n : ℚ)) = if (n : ℚ) = 1 ∨ (n : ℚ) = 2 then 2 else 1 := rfl
    rw [hdef, if_neg hc]
  · rw [hlook]
    rfl
  · rw [hlook]
    rfl
  · intro h1 h2 h3 h4
    rw [hlook]
    have hnone : status_map.lookup n = none := by
      have e1 : (n == 1) = false := beq_eq_false_iff_ne.mpr h1
      have e2 : (n == 2) = false := beq_eq_false_iff_ne.mpr h2
      have e3 : (n == 3) = false := beq_eq_false_iff_ne.mpr h3
      have e4 : (n == 4) = false := beq_eq_false_iff_ne.mpr h4
      simp [status_map, List.lookup, e1, e2, e3, e4]
    simp [hnone]

/-- Claim C7 witness: code 1 gives two attempts, code 7 gives one
attempt with the generic Code label, and an absent code is labelled
Unknown. -/
theorem c7_witness :
    attempts (some ((1 : ℤ) : ℚ)) = 2 ∧
    attempts (some ((7 : ℤ) : ℚ)) = 1 ∧
    get_status_text (some ((7 : ℤ) : ℚ)) = "Code: " ++ toString (7 : ℤ) ∧
    get_status_text none = "Unknown" :=
  ⟨((c7_derive_attempts 1).1 (Or.inl rfl)).1,
    (c7_derive_attempts 7).2.1 (by decide) (by decide),
    (c7_derive_attempts 7).2.2.2.2.1 (by decide) (by decide) (by decide) (by decide),
    (c7_derive_attempts 0).2.2.2.2.2.2⟩

/-! ### Concrete batch of claim C4 -/

def c4entry1 : RawFeedEntry :=
  ⟨"2024-01-15T00:00:00Z", some "21.0", none, some "3.9", some "4", none, none, none, none⟩

def c4entry2 : RawFeedEntry :=
  ⟨"not-a-date", some "22.0", none, some "3.8", some "4", none, none, none, none⟩

def c4entry3 : RawFeedEntry :=
  ⟨"2024-01-15T06:00:00Z", some "23.0", none, some "3.8", some "1", none, none, none, none⟩

def c4entry4 : RawFeedEntry :=
  ⟨"garbage", some "24.0", none, some "3.7", some "2", none, none, none, none⟩

def c4entry5 : RawFeedEntry :=
  ⟨"2024-01-15T12:00:00Z", some "25.0", none, some "3.7", some "3", none, none, none, none⟩

/-- Five entries of which the second and the fourth have unparseable
timestamps. -/
def c4batch : RawFeedBatch :=
  ⟨some [c4entry1, c4entry2, c4entry3, c4entry4, c4entry5]⟩

/-- Claim C4 counterexample: on the five-entry batch whose second and
fourth timestamps are unparseable, process_data raises (the timestamp
conversion runs in raising error mode), so it does not return the
three surviving records the claim demands. -/
theorem c4_counterexample :
    process_data (some c4batch) =
      Except.error "Unknown datetime string format: not-a-date" ∧
    process_data (some c4batch) ≠
      Except.ok (some ([c4entry1, c4entry3, c4entry5].map toRecord)) := by
  have h : process_data (some c4batch) =
      Except.error "Unknown datetime string format: not-a-date" := rfl
  exact ⟨h, fun hc => Except.noConfusion (h.symm.trans hc)⟩

/-- Claim C4 amended: a batch containing any entry with an unparseable
timestamp makes process_data fail as a whole with an error; no record
of the batch survives. -/
theorem c4_bad_timestamp_fails_batch (batch : RawFeedBatch) (feeds : List RawFeedEntry)
    (e : RawFeedEntry) (hf : batch.feeds = some feeds) (he : e ∈ feeds)
    (hbad : parseTimestamp e.created_at = none) :
    ∃ msg, process_data (some batch) = Except.error msg := by
  match feeds, he with
  | e0 :: es, he =>
    have hfind : ((e0 :: es).find? (fun x => (parseTimestamp x.created_at).isNone)).isSome := by
      rw [List.find?_isSome]
      exact ⟨e, he, by simp [hbad]⟩
    obtain ⟨bad, hbadfind⟩ := Option.isSome_iff_exists.mp hfind
    refine ⟨"Unknown datetime string format: " ++ bad.created_at, ?_⟩
    rw [process_data_cons hf, hbadfind]

/-- Claim C4 amended witness: the concrete five-entry batch errors
out. -/
theorem c4_witness : ∃ msg, process_data (some c4batch) = Except.error msg :=
  c4_bad_timestamp_fails_batch c4batch _ c4entry2 rfl (by decide) (by decide)

/-- Claim C5: numeric coercion of the channel fields is parse or
absent: the sample value 23.5 parses to the number, a non-numeric or
missing value becomes absent (never zero), the stored record fields
are exactly the coerced raw fields, and field contents never make
process_data fail (only timestamps can). -/
theorem c5_parse_or_absent :
    toNumeric (some "23.5") = some (47 / 2) ∧
    toNumeric (some "abc") = none ∧
    toNumeric none = none ∧
    (∀ (b : RawFeedBatch) (feeds : List RawFeedEntry) (rs : List Record),
      b.feeds = some feeds → process_data (some b) = Except.ok (some rs) →
      rs.map Record.field1 = feeds.map (fun e => toNumeric e.field1) ∧
      rs.map Record.field3 = feeds.map (fun e => toNumeric e.field3) ∧
      rs.map Record.field4 = feeds.map (fun e => toNumeric e.field4)) ∧
    (∀ (b : RawFeedBatch) (feeds : List RawFeedEntry),
      b.feeds = some feeds → feeds ≠ [] →
      (∀ e ∈ feeds, (parseTimestamp e.created_at).isSome) →
      process_data (some b) = Except.ok (some (feeds.map toRecord))) := by
  refine ⟨?_, rfl, rfl, ?_, ?_⟩
  · have h : parseDecimalRep "23.5".data = some (235, 1) := by decide
    simp only [toNumeric, Option.bind, parseDecimal, h, Option.map]
    norm_num
  · intro b feeds rs hf hok
    match feeds with
    | [] =>
      simp [process_data, hf] at hok
    | e0 :: es =>
      rw [process_data_cons hf] at hok
      rcases hfind : (e0 :: es).find? (fun x => (parseTimestamp x.created_at).isNone) with
        _ | bad
      · rw [hfind] at hok
        simp only [Except.ok.injEq, Option.some.injEq] at hok
        subst hok
        refine ⟨?_, ?_, ?_⟩ <;> rw [List.map_map] <;> rfl
      · rw [hfind] at hok
        exact Except.noConfusion hok
  · intro b feeds hf hne hall
    match feeds, hne with
    | e0 :: es, _ =>
      have hfind : (e0 :: es).find? (fun x => (parseTimestamp x.created_at).isNone) = none := by
        rw [List.find?_eq_none]
        intro x hx
        have hs := hall x hx
        simp only [Option.isNone_iff_eq_none]
        intro hc
        rw [hc] at hs
        simp at hs
      rw [process_data_cons hf, hfind]

/-- Concrete entry of the C5 witness: a non-numeric moisture field. -/
def c5entry : RawFeedEntry :=
  ⟨"2024-01-15T10:30:00Z", some "abc", none, some "3.7", some "4", none, none, none, none⟩

/-- Claim C5 witness: a batch whose moisture field is non-numeric is
normalized without error and its stored moisture column is the
coercion of the raw field. -/
theorem c5_witness :
    process_data (some ⟨some [c5entry]⟩) = Except.ok (some ([c5entry].map toRecord)) ∧
    ([c5entry].map toRecord).map Record.field1 =
      [c5entry].map (fun e => toNumeric e.field1) := by
  have h5 := c5_parse_or_absent.2.2.2.2 ⟨some [c5entry]⟩ [c5entry] rfl (by decide) (by decide)
  exact ⟨h5, (c5_parse_or_absent.2.2.2.1 ⟨some [c5entry]⟩ [c5entry]
    ([c5entry].map toRecord) rfl h5).1⟩

/-- Claim C8: exporting any normalized record sequence produced by
process_data to the delimited table and re-parsing it yields the same
moisture (field1), battery (field3) and status (field4) values, with
absent optional fields represented as empty cells. -/
theorem c8_csv_roundtrip (data : RawFeedBatch) (rs : List Record)
    (h : process_data (some data) = Except.ok (some rs)) :
    ∀ r ∈ rs, parseRow (exportRow r) = (r.field1, r.field3, r.field4) := by
  have hrecords : ∃ feeds : List RawFeedEntry, rs = feeds.map toRecord := by
    rcases hf : data.feeds with _ | feeds
    · simp [process_data, hf] at h
    · rcases feeds with _ | ⟨e0, es⟩
      · simp [process_data, hf] at h
      · rw [process_data_cons hf] at h
        rcases hfind : (e0 :: es).find? (fun x => (parseTimestamp x.created_at).isNone) with
          _ | bad
        · rw [hfind] at h
          simp only [Except.ok.injEq, Option.some.injEq] at h
          exact ⟨e0 :: es, h.symm⟩
        · rw [hfind] at h
          exact Except.noConfusion h
  obtain ⟨feeds, rfl⟩ := hrecords
  intro r hr
  obtain ⟨e, he, rfl⟩ := List.mem_map.mp hr
  show (parseCell (exportCell (toNumeric e.field1)), parseCell (exportCell (toNumeric e.field3)),
      parseCell (exportCell (toNumeric e.field4))) =
    (toNumeric e.field1, toNumeric e.field3, toNumeric e.field4)
  rw [parseCell_exportCell, parseCell_exportCell, parseCell_exportCell]

/-- Concrete entry of the C8 witness: moisture 23.5, no adc, battery
3.7, status 4, and a log message. -/
def c8entry : RawFeedEntry :=
  ⟨"2024-01-15T10:30:00Z", some "23.5", none, some "3.7", some "4", none, none, none,
    some "WiFi+OK+Signal%3A+-67+dBm"⟩

/-- Claim C8 witness: the round trip recovers the three columns of the
record normalized from the concrete entry. -/
theorem c8_witness :
    parseRow (exportRow (toRecord c8entry)) =
      ((toRecord c8entry).field1, (toRecord c8entry).field3, (toRecord c8entry).field4) := by
  have hfind : [c8entry].find? (fun x => (parseTimestamp x.created_at).isNone) = none := by
    decide
  have hpd : process_data (some ⟨some [c8entry]⟩) = Except.ok (some ([c8entry].map toRecord)) := by
    rw [process_data_cons rfl, hfind]
  exact c8_csv_roundtrip ⟨some [c8entry]⟩ ([c8entry].map toRecord) hpd (toRecord c8entry)
    (by simp)

end SensorDashboard
